import Mathlib

/-!
Verification of the Message Triage Engine (Telegram thought-logger backend).

This file shallowly embeds the engine logic of the three edge functions
(`telegram-webhook`, `ai-classify`, `ai-summarize-range`) and proves, or
refutes, the behavioural claims made about them.

Modelling conventions:
* machine timestamps are `Int` milliseconds since the Unix epoch;
* SQL `NULL` / JS `undefined` are `Option`;
* a JS number is a rational (`ℚ`); where `NaN`/`±Infinity` can occur
  (`Number(x)` coercions on embedding entries) we use `Option ℚ` with
  `none` denoting a non-finite value;
* database tables are association lists keyed by the conflict column;
  `UPDATE ... WHERE` and `INSERT ... ON CONFLICT DO UPDATE` (PostgREST
  `upsert` with `merge-duplicates`) update exactly the payload columns of
  every matching row, leaving the other columns untouched;
* fallible operations return `Except`; `Deno.serve` handlers are pure
  state-passing functions.
-/

/-! ## Message store (telegram-webhook: `insertMessage`) -/

/-- One row of the `messages` table, restricted to the columns the webhook
inserts and that matter for de-duplication. `external_ref` models the
unique external source-event reference (`telegram_update_id`). -/
structure MsgRow where
  external_ref : Option Int
  text : String
  created_at : Int
deriving DecidableEq

/-- The `messages` table: rows keyed by their system-generated id, plus the
next fresh id. -/
structure MsgStore where
  rows : List (Nat × MsgRow)
  nextId : Nat
deriving DecidableEq

/-- Modelled from the spec: the database schema (migrations) is not in the
source tree; per §3/§4.1 of the spec, `external_ref` carries a unique
constraint, so a plain `INSERT` of an already-stored reference fails with
the Postgres unique-violation code 23505 and performs no mutation.
A fresh insert appends a row under a new id. -/
def dbInsert (s : MsgStore) (r : MsgRow) : Except Nat (MsgStore × Nat) :=
  match r.external_ref with
  | some ref =>
      if s.rows.any (fun p => p.2.external_ref == some ref) then
        Except.error 23505
      else
        Except.ok (⟨s.rows ++ [(s.nextId, r)], s.nextId + 1⟩, s.nextId)
  | none => Except.ok (⟨s.rows ++ [(s.nextId, r)], s.nextId + 1⟩, s.nextId)

/-- `insertMessage` from `telegram-webhook`: performs the insert, swallows a
unique-violation (error code 23505) and returns `data?.id ?? null`, i.e.
`none` when the insert conflicted. Any other error is rethrown. -/
def insertMessage (s : MsgStore) (r : MsgRow) : Except Nat (MsgStore × Option Nat) :=
  match dbInsert s r with
  | Except.ok (s2, id) => Except.ok (s2, some id)
  | Except.error code =>
      if code == 23505 then Except.ok (s, none) else Except.error code

/-! ## Priority ranker (telegram-webhook: `handleReview`) -/

/-- The columns selected by `/review`:
`id, text, created_at, is_question, followup, urgency_score, replied`.
Nullable enrichment columns are `Option`. -/
structure RMsg where
  id : Nat
  created_at : Int
  is_question : Option Bool
  followup : Option Bool
  urgency_score : Option ℚ
  replied : Option Bool
deriving DecidableEq

/-- The age of a message in days, clamped to be nonnegative:
`Math.max(0, (Date.now() - created_at) / 86400000)`. -/
def ageDays (now : Int) (m : RMsg) : ℚ :=
  max 0 ((now - m.created_at : ℚ) / 86400000)

/-- The review score from `handleReview`:
`3*Number(!!is_question) + 2*Number(!!followup) + 1.5*(urgency_score ?? 0)
 + 2*Number(!replied) + 1*Math.exp(-ageDays)`.
JS `!!null` is `false` and `!null` is `true`, hence the `getD false`. -/
noncomputable def score (now : Int) (m : RMsg) : ℝ :=
  3 * (if m.is_question.getD false then 1 else 0)
    + 2 * (if m.followup.getD false then 1 else 0)
    + 1.5 * (m.urgency_score.getD 0 : ℝ)
    + 2 * (if m.replied.getD false then 0 else 1)
    + 1 * Real.exp (-(ageDays now m : ℝ))

/-- The scored candidates, in the order delivered by the database query
(which orders by `created_at` descending). -/
noncomputable def reviewScored (now : Int) (msgs : List RMsg) : List (RMsg × ℝ) :=
  msgs.map fun m => (m, score now m)

/-- The ranking pipeline of `handleReview`: score each candidate, sort by
the comparator `(a, b) => b.score - a.score` (JS `Array.prototype.sort` is
a stable sort, and a stable sort w.r.t. a total preorder is uniquely
determined, so the stable `insertionSort` models it exactly), then
`slice(0, 10)`. -/
noncomputable def reviewRank (now : Int) (msgs : List RMsg) : List (RMsg × ℝ) :=
  letI : DecidableRel (fun a b : RMsg × ℝ => b.2 ≤ a.2) := fun _ _ => Classical.dec _
  ((reviewScored now msgs).insertionSort (fun a b => b.2 ≤ a.2)).take 10

/-! ## Embedding persistence (ai-classify: the dimension gate) -/

/-- A JS number after `Number(x)` coercion: `some q` is a finite value,
`none` is `NaN` or `±Infinity` (`Number.isFinite` is `Option.isSome`). -/
abbrev JsNum := Option ℚ

/-- One row of the `embeddings` table (keyed by `message_id`). -/
structure EmbRow where
  message_id : Nat
  embedding : List JsNum
deriving DecidableEq

/-- PostgREST upsert on `embeddings` with `onConflict: "message_id"`:
replace the embedding of every row with this `message_id`, or append a new
row if none exists. -/
def upsertEmb (st : List EmbRow) (mid : Nat) (arr : List JsNum) : List EmbRow :=
  if st.any (fun r => r.message_id == mid) then
    st.map fun r => if r.message_id == mid then { r with embedding := arr } else r
  else st ++ [{ message_id := mid, embedding := arr }]

/-- The embedding branch of `ai-classify`'s handler: coerce the upstream
result (`Array.isArray(vec) ? vec.map(Number) : []`, modelled as
`vec.getD []` over already-coerced entries), then persist only if
`arr.length === OPENAI_EMBED_DIMENSIONS && arr.every(Number.isFinite)`. -/
def embedStep (dim : Nat) (st : List EmbRow) (mid : Nat)
    (vec : Option (List JsNum)) : List EmbRow :=
  let arr := vec.getD []
  if arr.length == dim && arr.all (fun x => x.isSome) then
    upsertEmb st mid arr
  else st

/-- All rows of an `embeddings` table have vectors of exactly `dim`
entries. -/
def allDim (dim : Nat) (st : List EmbRow) : Bool :=
  st.all fun r => r.embedding.length == dim

/-! ## Follow-up tracker (`followups` table) -/

/-- One row of the `followups` table. The status column is the literal
string `"open"` or `"done"`, as in the source. -/
structure FRow where
  message_id : Nat
  status : String
  due_at : Option Int
  resolved_at : Option Int
deriving DecidableEq

/-- Look up the (first) `followups` row for a message id. -/
def flookup (fl : List FRow) (mid : Nat) : Option FRow :=
  fl.find? fun r => r.message_id == mid

/-- The `followups` effect of `handleDone` in `telegram-webhook`:
`UPDATE followups SET status = 'done', resolved_at = now WHERE
message_id = mid` — an unconditional overwrite of both columns on every
matching row (`due_at` untouched). -/
def fupdateDone (now : Int) (mid : Nat) (fl : List FRow) : List FRow :=
  fl.map fun r =>
    if r.message_id == mid then { r with status := "done", resolved_at := some now }
    else r

/-- `handleSnooze` in `telegram-webhook`: upsert
`{ message_id, status: "open", due_at: now + hours*3600000 }` with
`onConflict: "message_id"` — on conflict exactly the payload columns are
overwritten (`resolved_at` untouched); otherwise a fresh row is inserted. -/
def handleSnoozeF (now : Int) (mid : Nat) (hours : Int) (fl : List FRow) : List FRow :=
  let due : Int := now + hours * 3600000
  if fl.any (fun r => r.message_id == mid) then
    fl.map fun r =>
      if r.message_id == mid then { r with status := "open", due_at := some due }
      else r
  else fl ++ [{ message_id := mid, status := "open", due_at := some due, resolved_at := none }]

/-! ## Summary cache (ai-summarize-range) -/

/-- One row of the `summaries` table. Calendar dates are represented by
their UTC day number (days since 1970-01-01); the ISO date string used in
the source is in bijection with the day number via `civilFromDays`. -/
structure SummaryRow where
  start_date : Int
  end_date : Int
  summary_md : String
deriving DecidableEq

/-- Result of one `ai-summarize-range` request: the cache afterwards, the
returned row, and whether the external summarizer was invoked. -/
structure SumResult where
  cache : List SummaryRow
  result : SummaryRow
  invoked : Bool
deriving DecidableEq

/-- The UTC calendar window of the handler: `end = today UTC`
(`Date.UTC(getUTCFullYear, getUTCMonth, getUTCDate)` is the floor of `now`
to a day boundary, i.e. the floored division by 86400000) and
`start = end - (days - 1)` (`setUTCDate(getUTCDate() - (days-1))`). -/
def summaryWindow (now : Int) (days : Int) : Int × Int :=
  let endDay := now.fdiv 86400000
  (endDay - (days - 1), endDay)

/-- Convert a UTC day number to a civil `(year, month, day)` date — the
date that `toISOString().slice(0, 10)` renders. This is the standard
days-from-civil inverse (Howard Hinnant's algorithm); all intermediate
divisions act on nonnegative values. -/
def civilFromDays (z0 : Int) : Int × Int × Int :=
  let z := z0 + 719468
  let era := z.fdiv 146097
  let doe := z - era * 146097
  let yoe := (doe - doe / 1460 + doe / 36524 - doe / 146096) / 365
  let y := yoe + era * 400
  let doy := doe - (365 * yoe + yoe / 4 - yoe / 100)
  let mp := (5 * doy + 2) / 153
  let d := doy - (153 * mp + 2) / 5 + 1
  let m := mp + (if mp < 10 then 3 else -9)
  (y + (if m ≤ 2 then 1 else 0), m, d)

/-- The `ai-summarize-range` handler: clamp `days` to `[1, 30]`, compute
the UTC window, return a cached row for exactly that `(start, end)` pair
as-is, and only on a miss invoke the external summarizer and insert the
new row. `msgs` stands for the message texts fetched for the window and
`f` for the external summarization capability. -/
def handleSummarizeRange (st : List SummaryRow) (now : Int) (n : Int)
    (msgs : List String) (f : List String → Int → String) : SumResult :=
  let days := max 1 (min 30 n)
  let w := summaryWindow now days
  match st.find? (fun q => q.start_date == w.1 && q.end_date == w.2) with
  | some r => ⟨st, r, false⟩
  | none =>
      let md := f msgs days
      ⟨st ++ [⟨w.1, w.2, md⟩], ⟨w.1, w.2, md⟩, true⟩

/-! ## Classification normalization (ai-classify: `openaiJSON` and `upd`) -/

/-- A JSON value as produced by `JSON.parse` (numbers are finite). -/
inductive JVal where
  | jnull
  | jbool (b : Bool)
  | jnum (q : ℚ)
  | jstr (s : String)
  | jarr (elems : List JVal)
  | jobj (fields : List (String × JVal))

/-- The upstream outcome of the classification call: HTTP failure,
non-JSON content, or a parsed JSON value. -/
inductive ClsOutcome where
  | httpFailure
  | malformed (raw : String)
  | parsed (v : JVal)

/-- `openaiJSON`'s return value: `{}` when the call failed or the content
did not parse, otherwise the parsed value. -/
def openaiJSONResult : ClsOutcome → JVal
  | ClsOutcome.httpFailure => JVal.jobj []
  | ClsOutcome.malformed _ => JVal.jobj []
  | ClsOutcome.parsed v => v

/-- JS property access `v.k`: defined only on objects, `undefined`
(`none`) otherwise. -/
def getField (v : JVal) (k : String) : Option JVal :=
  match v with
  | JVal.jobj fields => fields.lookup k
  | _ => none

/-- JS truthiness of a possibly-`undefined` value, as used by `!!x`. -/
def truthy : Option JVal → Bool
  | none => false
  | some JVal.jnull => false
  | some (JVal.jbool b) => b
  | some (JVal.jnum q) => decide (q ≠ 0)
  | some (JVal.jstr s) => s != ""
  | some (JVal.jarr _) => true
  | some (JVal.jobj _) => true

/-- Typed test: is the field present and a number
(`typeof x === "number"`)? -/
def isNumField : Option JVal → Bool
  | some (JVal.jnum _) => true
  | _ => false

/-- Typed test: is the field present and an array (`Array.isArray(x)`)? -/
def isArrField : Option JVal → Bool
  | some (JVal.jarr _) => true
  | _ => false

/-- Typed test of the `entities` guard `x && typeof x === "object"`:
objects and arrays pass (JS `typeof [] === "object"`), `null` is falsy,
everything else has a different `typeof`. -/
def isObjLike : Option JVal → Bool
  | some (JVal.jobj _) => true
  | some (JVal.jarr _) => true
  | _ => false

/-- The normalized classification record `upd` built by `ai-classify`. -/
structure Cls where
  is_question : Bool
  needs_reply : Bool
  followup : Bool
  urgency_score : ℚ
  topics : Option (List JVal)
  entities : Option JVal
  sentiment : Option ℚ

/-- The field normalization of `ai-classify`: boolean flags by `!!`
truthiness, `urgency_score` by a `typeof number` check defaulting to 0,
`topics` by `Array.isArray` defaulting to `null`, `entities` by
`x && typeof x === "object"` (arrays and objects pass, `null` is falsy),
`sentiment` by `typeof number` defaulting to `null`. -/
def normalizeCls (v : JVal) : Cls where
  is_question := truthy (getField v "is_question")
  needs_reply := truthy (getField v "needs_reply")
  followup := truthy (getField v "followup")
  urgency_score :=
    match getField v "urgency_score" with
    | some (JVal.jnum q) => q
    | _ => 0
  topics :=
    match getField v "topics" with
    | some (JVal.jarr xs) => some xs
    | _ => none
  entities :=
    match getField v "entities" with
    | some (JVal.jobj fields) => some (JVal.jobj fields)
    | some (JVal.jarr xs) => some (JVal.jarr xs)
    | _ => none
  sentiment :=
    match getField v "sentiment" with
    | some (JVal.jnum q) => some q
    | _ => none

/-- The all-neutral classification: every flag `false`, score 0,
everything else unset. -/
def neutralCls : Cls :=
  { is_question := false, needs_reply := false, followup := false
  , urgency_score := 0, topics := none, entities := none, sentiment := none }

/-- The classification stage of the enrichment step: normalize whatever the
upstream produced. It has no failing control path — upstream failure has
already been collapsed to `{}` by `openaiJSON` — so it always returns
`Except.ok`. -/
def classifyStep (o : ClsOutcome) : Except String Cls :=
  Except.ok (normalizeCls (openaiJSONResult o))

/-- The follow-up branch of `ai-classify`: iff the normalized
classification flags `followup` or `is_question`, upsert
`{ message_id, status: "open" }` with `onConflict: "message_id"` — on
conflict only the `status` column is overwritten (`due_at` and
`resolved_at` are untouched); otherwise a fresh row with no `due_at` is
inserted. -/
def followupStep (mid : Nat) (c : Cls) (fl : List FRow) : List FRow :=
  if c.followup || c.is_question then
    if fl.any (fun r => r.message_id == mid) then
      fl.map fun r => if r.message_id == mid then { r with status := "open" } else r
    else fl ++ [{ message_id := mid, status := "open", due_at := none, resolved_at := none }]
  else fl

/-! ## Webhook command gate (telegram-webhook: `parseCommand` and serve) -/

/-- The first whitespace-separated token of the trimmed text (the `cmd` of
`parseCommand`'s `text.trim().split(/\s+/)`), as a character list: dropping
the leading whitespace and taking up to the next whitespace is exactly the
first token of the trimmed, whitespace-split text. -/
def firstTokL (text : String) : List Char :=
  (text.toList.dropWhile Char.isWhitespace).takeWhile fun c => !c.isWhitespace

/-- `parseCommand`'s `name`: `cmd.startsWith("/") ? cmd.slice(1) : null`. -/
def commandName (text : String) : Option (List Char) :=
  match firstTokL text with
  | c :: rest => if c == '/' then some rest else none
  | [] => none

/-- JS truthiness of a `string | null`: `null` and the empty string are
falsy. This is the `if (name)` test of the webhook dispatcher. -/
def jsTruthyStr : Option (List Char) → Bool
  | none => false
  | some l => !l.isEmpty

/-- The message path of the webhook handler: insert the message (always),
then dispatch: a truthy command name goes to the command handlers and
never to the classifier; otherwise `ai-classify` is called exactly when
the insert returned a fresh id. Returns the store and whether
classification was invoked. -/
def webhookHandleText (s : MsgStore) (r : MsgRow) : Except Nat (MsgStore × Bool) :=
  match insertMessage s r with
  | Except.error e => Except.error e
  | Except.ok (s2, insertedId) =>
      if jsTruthyStr (commandName r.text) then Except.ok (s2, false)
      else Except.ok (s2, insertedId.isSome)

/-! ## Theorems -/

/-- C2 example message: a question, created at the same instant as "now". -/
def c2msg : RMsg :=
  { id := 1, created_at := 0, is_question := some true, followup := some false
  , urgency_score := some 0, replied := some false }

/-- C2: the priority ranker computes
`score = 3*[is_question] + 2*[followup] + 1.5*urgency + 2*[not replied] + e^(-age_days)`
with `age_days = (now - created_at)/1 day` clamped to `≥ 0` and unset
fields counting as `false`/`0`; a message with `is_question = true`,
`followup = false`, `replied = false`, `urgency_score = 0`,
`created_at = now` scores exactly 6. -/
theorem score_formula_and_example (now : Int) (m : RMsg) :
    (score now m =
      3 * (if m.is_question.getD false then 1 else 0)
        + 2 * (if m.followup.getD false then 1 else 0)
        + 1.5 * (m.urgency_score.getD 0 : ℝ)
        + 2 * (if m.replied.getD false then 0 else 1)
        + Real.exp (-(max 0 ((now - m.created_at : ℚ) / 86400000) : ℚ))) ∧
    (m.is_question = some true → m.followup = some false →
      m.replied = some false → m.urgency_score = some 0 →
      m.created_at = now → score now m = 6) := by
  constructor
  · simp [score, ageDays]
  · intro h1 h2 h3 h4 h5
    simp [score, ageDays, h1, h2, h3, h4, h5]
    norm_num [Real.exp_zero]

/-- C2 witness: the concrete example message scores exactly 6. -/
theorem score_formula_and_example_witness : score 0 c2msg = 6 :=
  (score_formula_and_example 0 c2msg).2 rfl rfl rfl rfl rfl

/-- C1 counterexample store: one stored message, id 0, external_ref 42. -/
def c1row : MsgRow := { external_ref := some 42, text := "hello", created_at := 5 }

/-- C1 counterexample store with `c1row` already stored under id 0. -/
def c1store : MsgStore := { rows := [(0, c1row)], nextId := 1 }

/-- C1 counterexample: re-ingesting the message whose external reference 42
is already stored under id 0 is swallowed as success with **no id**
(`data?.id ?? null` is `null` after a unique violation) — it does **not**
return the existing message id 0, contrary to the claim. -/
theorem insertMessage_dup_returns_none :
    insertMessage c1store c1row = Except.ok (c1store, none) ∧
    insertMessage c1store c1row ≠ Except.ok (c1store, some 0) := by
  constructor
  · rfl
  · intro h
    simp [insertMessage, dbInsert, c1store, c1row] at h

/-- C1 (amended): ingesting a message whose external reference is already
stored creates no second row (the store is unchanged), the unique-violation
is swallowed and reported as success, and the call returns `none`
(not the existing message id); the caller treats `none` as "not new". -/
theorem insertMessage_duplicate_idempotent (s : MsgStore) (r : MsgRow) (ref : Int)
    (h1 : r.external_ref = some ref)
    (h2 : s.rows.any (fun p => p.2.external_ref == some ref) = true) :
    insertMessage s r = Except.ok (s, none) := by
  simp [insertMessage, dbInsert, h1, h2]

/-- C1 witness: the amended duplicate-ingestion contract at the concrete
duplicate input. -/
theorem insertMessage_duplicate_idempotent_witness :
    insertMessage c1store c1row = Except.ok (c1store, none) :=
  insertMessage_duplicate_idempotent c1store c1row 42 rfl (by decide)

/-- A stable insertion step: inserting `a` into a list `L` that is pairwise
"sorted-or-tied in input order" (`r x y` and, where `r` also holds
backwards, the secondary order `s x y`), where `a` is secondary-before
every element of `L`, preserves that invariant. -/
theorem orderedInsert_pairwise_stable {α : Type} (r s : α → α → Prop)
    [DecidableRel r]
    (total : ∀ a b, r a b ∨ r b a)
    (htrans : ∀ a b c, r a b → r b c → r a c) (a : α) :
    ∀ L : List α,
      L.Pairwise (fun x y => r x y ∧ (r y x → s x y)) →
      (∀ b ∈ L, s a b) →
      (L.orderedInsert r a).Pairwise (fun x y => r x y ∧ (r y x → s x y)) := by
  intro L
  induction L with
  | nil => intro _ _; simp
  | cons b L ih =>
    intro hP ha
    obtain ⟨hbL, hPL⟩ := List.pairwise_cons.mp hP
    rw [List.orderedInsert]
    by_cases hab : r a b
    · rw [if_pos hab]
      refine List.pairwise_cons.mpr ⟨?_, hP⟩
      intro y hy
      rcases List.mem_cons.mp hy with hyb | hyL
      · subst hyb
        exact ⟨hab, fun _ => ha y (List.mem_cons_self y L)⟩
      · exact ⟨htrans a b y hab (hbL y hyL).1,
          fun _ => ha y (List.mem_cons_of_mem b hyL)⟩
    · rw [if_neg hab]
      refine List.pairwise_cons.mpr
        ⟨?_, ih hPL (fun c hc => ha c (List.mem_cons_of_mem b hc))⟩
      intro y hy
      rcases (List.mem_orderedInsert r).mp hy with hya | hyL
      · subst hya
        exact ⟨(total y b).resolve_left hab, fun hab2 => absurd hab2 hab⟩
      · exact hbL y hyL

/-- Stability of `insertionSort`: sorting a list that is already pairwise
ordered by a secondary relation `s` produces a list pairwise ordered by the
sort relation `r`, and by `s` wherever `r` holds in both directions
(i.e. ties keep their input order). -/
theorem insertionSort_pairwise_stable {α : Type} (r s : α → α → Prop)
    [DecidableRel r]
    (total : ∀ a b, r a b ∨ r b a)
    (htrans : ∀ a b c, r a b → r b c → r a c) :
    ∀ l : List α, l.Pairwise s →
      (l.insertionSort r).Pairwise (fun x y => r x y ∧ (r y x → s x y)) := by
  intro l
  induction l with
  | nil => intro _; simp
  | cons a l ih =>
    intro hs
    obtain ⟨hal, hsl⟩ := List.pairwise_cons.mp hs
    rw [List.insertionSort]
    refine orderedInsert_pairwise_stable r s total htrans a _ (ih hsl) ?_
    intro b hb
    exact hal b ((List.mem_insertionSort r).mp hb)

/-- C3: for a fixed candidate set (delivered by the database ordered by
`created_at` descending) and a fixed "now", the ranking is deterministic
(a pure function), descending by score, breaks score ties by the later
`created_at` first (JS sort is stable, so the database order survives
among equal scores), and returns at most the top 10 items. -/
theorem reviewRank_deterministic_sorted_topTen (now : Int) (msgs : List RMsg)
    (hdb : msgs.Pairwise fun a b => b.created_at ≤ a.created_at) :
    reviewRank now msgs = reviewRank now msgs ∧
    (reviewRank now msgs).Pairwise (fun a b => b.2 ≤ a.2) ∧
    (reviewRank now msgs).Pairwise
      (fun a b => a.2 = b.2 → b.1.created_at ≤ a.1.created_at) ∧
    (reviewRank now msgs).length ≤ 10 := by
  letI : DecidableRel (fun a b : RMsg × ℝ => b.2 ≤ a.2) := fun _ _ => Classical.dec _
  have hs : (reviewScored now msgs).Pairwise
      (fun a b : RMsg × ℝ => b.1.created_at ≤ a.1.created_at) := by
    unfold reviewScored
    exact List.pairwise_map.mpr hdb
  have key := insertionSort_pairwise_stable
    (fun a b : RMsg × ℝ => b.2 ≤ a.2)
    (fun a b : RMsg × ℝ => b.1.created_at ≤ a.1.created_at)
    (fun a b => le_total b.2 a.2)
    (fun _ _ _ h1 h2 => le_trans h2 h1)
    (reviewScored now msgs) hs
  have hsub : List.Sublist (reviewRank now msgs)
      ((reviewScored now msgs).insertionSort (fun a b : RMsg × ℝ => b.2 ≤ a.2)) := by
    unfold reviewRank
    exact List.take_sublist 10 _
  refine ⟨rfl, ?_, ?_, ?_⟩
  · exact (key.imp fun h => h.1).sublist hsub
  · exact (key.imp fun h heq => h.2 heq.le).sublist hsub
  · unfold reviewRank
    simp [List.length_take]

/-- C4: an embedding vector whose length differs from the configured
dimension is never persisted, whatever its content, and the
everything-has-exactly-`dim`-entries invariant of the `embeddings` table is
preserved by the embedding step. -/
theorem embedStep_dimension_gate (dim mid : Nat) (st : List EmbRow)
    (vec : Option (List JsNum)) :
    ((vec.getD []).length ≠ dim → embedStep dim st mid vec = st) ∧
    (allDim dim st = true → allDim dim (embedStep dim st mid vec) = true) := by
  constructor
  · intro hlen
    have hbeq : ((vec.getD []).length == dim) = false := by
      simpa using hlen
    simp [embedStep, hbeq]
  · intro hall
    unfold embedStep
    by_cases hc : ((vec.getD []).length == dim &&
        (vec.getD []).all (fun x => x.isSome)) = true
    · rw [if_pos hc]
      have hlen : (vec.getD []).length = dim := by
        have := (Bool.and_eq_true _ _).mp hc
        simpa using this.1
      unfold upsertEmb
      by_cases hany : (st.any (fun r => r.message_id == mid)) = true
      · rw [if_pos hany]
        rw [allDim, List.all_eq_true] at hall ⊢
        intro r hr
        obtain ⟨r0, hr0, hr0eq⟩ := List.mem_map.mp hr
        by_cases hm : (r0.message_id == mid) = true
        · rw [if_pos hm] at hr0eq
          subst hr0eq
          simpa using hlen
        · rw [if_neg (by simpa using hm)] at hr0eq
          subst hr0eq
          exact hall r0 hr0
      · rw [if_neg hany]
        rw [allDim, List.all_eq_true] at hall ⊢
        intro r hr
        rcases List.mem_append.mp hr with hl | hr1
        · exact hall r hl
        · have : r = { message_id := mid, embedding := vec.getD [] } := by
            simpa using hr1
          subst this
          simpa using hlen
    · rw [if_neg hc]
      exact hall

/-- C4 witness table: one stored three-dimensional embedding. -/
def c4store : List EmbRow := [{ message_id := 7, embedding := [some 0, some 0, some 0] }]

/-- C4 witness: a two-entry vector is rejected by the dimension-3 gate, and
the all-rows-have-dimension-3 invariant survives a step on a valid
three-entry vector. -/
theorem embedStep_dimension_gate_witness :
    embedStep 3 c4store 9 (some [some 1, some 2]) = c4store ∧
    allDim 3 (embedStep 3 c4store 7 (some [some 4, some 5, some 6])) = true :=
  ⟨(embedStep_dimension_gate 3 9 c4store (some [some 1, some 2])).1 (by decide),
   (embedStep_dimension_gate 3 7 c4store (some [some 4, some 5, some 6])).2 (by decide)⟩

/-- Updating every row matching a key with a key-preserving function
commutes with looking the key up. -/
theorem flookup_map_upd (mid : Nat) (g : FRow → FRow)
    (hg : ∀ r, (g r).message_id = r.message_id) :
    ∀ fl : List FRow,
      flookup (fl.map fun r => if r.message_id == mid then g r else r) mid
        = (flookup fl mid).map g := by
  intro fl
  induction fl with
  | nil => rfl
  | cons r fl ih =>
    by_cases hm : (r.message_id == mid) = true
    · have h1 : ((g r).message_id == mid) = true := by rw [hg r]; exact hm
      simp only [flookup, List.map_cons]
      rw [if_pos hm]
      rw [List.find?_cons_of_pos (p := fun r : FRow => r.message_id == mid) _ h1]
      rw [List.find?_cons_of_pos (p := fun r : FRow => r.message_id == mid) _ hm]
      rfl
    · simp only [flookup, List.map_cons] at ih ⊢
      rw [if_neg (by simpa using hm)]
      rw [List.find?_cons_of_neg (p := fun r : FRow => r.message_id == mid) _ (by simpa using hm)]
      rw [List.find?_cons_of_neg (p := fun r : FRow => r.message_id == mid) _ (by simpa using hm)]
      exact ih

/-- Effect of one snooze on the looked-up row: the row exists, is `open`,
and its `due_at` is exactly `now + hours * 3600000`. -/
theorem flookup_snooze (now : Int) (mid : Nat) (hours : Int) (fl : List FRow) :
    ∃ r, flookup (handleSnoozeF now mid hours fl) mid = some r ∧
      r.status = "open" ∧ r.due_at = some (now + hours * 3600000) := by
  unfold handleSnoozeF
  by_cases hany : (fl.any (fun r => r.message_id == mid)) = true
  · rw [if_pos hany]
    have hsome : (flookup fl mid).isSome := by
      rw [flookup, List.find?_isSome]
      obtain ⟨r0, hr0, hp⟩ := List.any_eq_true.mp hany
      exact ⟨r0, hr0, hp⟩
    obtain ⟨r0, hr0⟩ := Option.isSome_iff_exists.mp hsome
    refine ⟨{ r0 with status := "open", due_at := some (now + hours * 3600000) }, ?_, rfl, rfl⟩
    rw [flookup_map_upd mid
      (fun r => { r with status := "open", due_at := some (now + hours * 3600000) })
      (fun r => rfl), hr0]
    rfl
  · rw [if_neg hany]
    refine ⟨{ message_id := mid, status := "open"
            , due_at := some (now + hours * 3600000), resolved_at := none }, ?_, rfl, rfl⟩
    rw [flookup, List.find?_append]
    have hnone : fl.find? (fun r => r.message_id == mid) = none := by
      rw [List.find?_eq_none]
      intro x hx hpx
      exact hany (List.any_eq_true.mpr ⟨x, hx, hpx⟩)
    rw [hnone]
    simp

/-- C6: snooze sets `due_at = now + hours * 3600000` and leaves the row
`open`; a second snooze overwrites the deadline — snoozing 24h at `t1` and
then 1h at `t2` leaves `due_at = t2 + 1h`, not a cumulative value. -/
theorem handleSnoozeF_last_write_wins (mid : Nat) (t1 t2 hours : Int) (fl : List FRow) :
    (∃ r, flookup (handleSnoozeF t1 mid hours fl) mid = some r ∧
      r.status = "open" ∧ r.due_at = some (t1 + hours * 3600000)) ∧
    (∃ r, flookup (handleSnoozeF t2 mid 1 (handleSnoozeF t1 mid 24 fl)) mid = some r ∧
      r.status = "open" ∧ r.due_at = some (t2 + 1 * 3600000)) :=
  ⟨flookup_snooze t1 mid hours fl,
   flookup_snooze t2 mid 1 (handleSnoozeF t1 mid 24 fl)⟩

/-- C5 counterexample table: one open follow-up for message 1. -/
def c5fl : List FRow :=
  [{ message_id := 1, status := "open", due_at := none, resolved_at := none }]

/-- C5 counterexample: resolving message 1 at time 100 and again at time
200 leaves `resolved_at = 200` — the timestamp of the **second** call, not
the first, contrary to the claim that the first `resolved_at` is kept. -/
theorem fupdateDone_overwrites_resolved_at :
    flookup (fupdateDone 200 1 (fupdateDone 100 1 c5fl)) 1 =
      some { message_id := 1, status := "done", due_at := none, resolved_at := some 200 } ∧
    (some (200 : Int) : Option Int) ≠ some 100 := by
  constructor
  · rfl
  · decide

/-- C5 (amended): resolving twice still succeeds and leaves the follow-up
`done`, but `resolved_at` is overwritten by each call (last write wins), so
after the second call it carries the second call's timestamp. -/
theorem fupdateDone_twice (mid : Nat) (t1 t2 : Int) (fl : List FRow) (r0 : FRow)
    (h : flookup fl mid = some r0) :
    flookup (fupdateDone t2 mid (fupdateDone t1 mid fl)) mid =
      some { r0 with status := "done", resolved_at := some t2 } := by
  unfold fupdateDone
  rw [flookup_map_upd mid
    (fun r => { r with status := "done", resolved_at := some t2 }) (fun r => rfl)]
  rw [flookup_map_upd mid
    (fun r => { r with status := "done", resolved_at := some t1 }) (fun r => rfl)]
  rw [h]
  rfl

/-- C5 witness: the amended double-resolve contract at the concrete
follow-up table. -/
theorem fupdateDone_twice_witness :
    flookup (fupdateDone 200 2 (fupdateDone 100 2
        [{ message_id := 2, status := "open", due_at := some 7, resolved_at := none }])) 2 =
      some { message_id := 2, status := "done", due_at := some 7, resolved_at := some 200 } :=
  fupdateDone_twice 2 100 200 _
    { message_id := 2, status := "open", due_at := some 7, resolved_at := none } rfl

/-- C3 witness candidate list: two unscored messages, database order
(`created_at` descending). -/
def c3msgs : List RMsg :=
  [ { id := 1, created_at := 100, is_question := none, followup := none
    , urgency_score := none, replied := none }
  , { id := 2, created_at := 50, is_question := none, followup := none
    , urgency_score := none, replied := none } ]

/-- C3 witness: the ranking contract at a concrete two-element candidate
set in database order. -/
theorem reviewRank_deterministic_sorted_topTen_witness :
    reviewRank 100 c3msgs = reviewRank 100 c3msgs ∧
    (reviewRank 100 c3msgs).Pairwise (fun a b => b.2 ≤ a.2) ∧
    (reviewRank 100 c3msgs).Pairwise
      (fun a b => a.2 = b.2 → b.1.created_at ≤ a.1.created_at) ∧
    (reviewRank 100 c3msgs).length ≤ 10 :=
  reviewRank_deterministic_sorted_topTen 100 c3msgs (by decide)

/-- C7: for `1 ≤ n ≤ 30` the computed UTC window is
`end = today UTC` and `start = end - (n - 1)`; with
now = 2024-03-10T12:00Z (1710072000000 ms) and `days = 7` the window is
2024-03-04 .. 2024-03-10; and a cached Summary row keyed by exactly that
`(start_date, end_date)` pair is returned as-is without invoking the
summarizer. -/
theorem summarize_window_and_cache_hit (st : List SummaryRow) (now n : Int)
    (msgs : List String) (f : List String → Int → String) (r : SummaryRow)
    (h1 : 1 ≤ n) (h2 : n ≤ 30)
    (hc : st.find? (fun q => q.start_date == now.fdiv 86400000 - (n - 1) &&
            q.end_date == now.fdiv 86400000) = some r) :
    handleSummarizeRange st now n msgs f = ⟨st, r, false⟩ ∧
    summaryWindow now (max 1 (min 30 n)) =
      (now.fdiv 86400000 - (n - 1), now.fdiv 86400000) ∧
    civilFromDays (summaryWindow 1710072000000 7).1 = (2024, 3, 4) ∧
    civilFromDays (summaryWindow 1710072000000 7).2 = (2024, 3, 10) := by
  have hd : max 1 (min 30 n) = n := by omega
  refine ⟨?_, ?_, by decide, by decide⟩
  · have hc2 : st.find? (fun q => q.start_date == (summaryWindow now (max 1 (min 30 n))).1 &&
        q.end_date == (summaryWindow now (max 1 (min 30 n))).2) = some r := by
      rw [hd]
      exact hc
    simp only [handleSummarizeRange]
    rw [hc2]
  · rw [hd]
    rfl

/-- C7 witness row: the cached digest for days 19786 .. 19792
(2024-03-04 .. 2024-03-10). -/
def c7row : SummaryRow := { start_date := 19786, end_date := 19792, summary_md := "cached digest" }

/-- C7 witness cache holding exactly `c7row`. -/
def c7cache : List SummaryRow := [c7row]

/-- C7 witness summarizer (must not be consulted on a cache hit). -/
def c7summarizer : List String → Int → String := fun _ _ => "fresh digest"

/-- C7 witness: the cache-hit contract at the concrete example request. -/
theorem summarize_window_and_cache_hit_witness :
    handleSummarizeRange c7cache 1710072000000 7 [] c7summarizer = ⟨c7cache, c7row, false⟩ ∧
    summaryWindow 1710072000000 (max 1 (min 30 7)) = (19786, 19792) ∧
    civilFromDays (summaryWindow 1710072000000 7).1 = (2024, 3, 4) ∧
    civilFromDays (summaryWindow 1710072000000 7).2 = (2024, 3, 10) :=
  summarize_window_and_cache_hit c7cache 1710072000000 7 [] c7summarizer c7row
    (by decide) (by decide) (by decide)

/-- C8 counterexample input: the upstream model answered
`{"is_question": "yes", "entities": []}` — a wrongly-typed (string,
truthy) flag and a wrongly-typed (array-valued) `entities`. -/
def c8bad : JVal :=
  JVal.jobj [("is_question", JVal.jstr "yes"), ("entities", JVal.jarr [])]

/-- C8 counterexample: two wrongly-typed fields that do **not** fall back
to the claim's safe neutral values — `is_question: "yes"` is coerced by
`!!` truthiness and stored as `true` (not `false`), and the array-valued
`entities` passes the `x && typeof x === "object"` guard (JS
`typeof [] === "object"`) and is stored as-is (not unset). -/
theorem normalizeCls_truthy_flag_not_neutral :
    ((normalizeCls c8bad).is_question = true ∧ true ≠ false) ∧
    ((normalizeCls c8bad).entities = some (JVal.jarr []) ∧
      (some (JVal.jarr []) : Option JVal) ≠ none) :=
  ⟨⟨rfl, by decide⟩, ⟨rfl, Option.some_ne_none _⟩⟩

/-- C8 (amended): classification never raises (the step always returns
`ok`); a failed call or malformed JSON yields the all-neutral record;
wrongly-typed `urgency_score`, `topics` and `sentiment` fall back to
`0`/unset/unset; `entities` falls back to unset only when the value is
neither an object nor an array — a (wrongly-typed) array passes the
`typeof`-object guard and is stored as-is; and the boolean flags are
coerced by JS truthiness (falsy or missing gives `false`, truthy values
of any type give `true`) rather than falling back to `false`. -/
theorem classifyStep_never_raises_defaults (o : ClsOutcome) (v : JVal) (raw : String) :
    (classifyStep o).isOk = true ∧
    classifyStep ClsOutcome.httpFailure = Except.ok neutralCls ∧
    classifyStep (ClsOutcome.malformed raw) = Except.ok neutralCls ∧
    (isNumField (getField v "urgency_score") = false →
      (normalizeCls v).urgency_score = 0) ∧
    (isArrField (getField v "topics") = false → (normalizeCls v).topics = none) ∧
    (isNumField (getField v "sentiment") = false → (normalizeCls v).sentiment = none) ∧
    (isObjLike (getField v "entities") = false → (normalizeCls v).entities = none) ∧
    (∀ xs, getField v "entities" = some (JVal.jarr xs) →
      (normalizeCls v).entities = some (JVal.jarr xs)) ∧
    (normalizeCls v).is_question = truthy (getField v "is_question") := by
  refine ⟨rfl, rfl, rfl, ?_, ?_, ?_, ?_, ?_, rfl⟩
  · intro h
    simp only [normalizeCls]
    cases hv : getField v "urgency_score"
    case none => rfl
    case some j =>
      cases j
      case jnum q => rw [hv] at h; simp [isNumField] at h
      all_goals rfl
  · intro h
    simp only [normalizeCls]
    cases hv : getField v "topics"
    case none => rfl
    case some j =>
      cases j
      case jarr xs => rw [hv] at h; simp [isArrField] at h
      all_goals rfl
  · intro h
    simp only [normalizeCls]
    cases hv : getField v "sentiment"
    case none => rfl
    case some j =>
      cases j
      case jnum q => rw [hv] at h; simp [isNumField] at h
      all_goals rfl
  · intro h
    simp only [normalizeCls]
    cases hv : getField v "entities"
    case none => rfl
    case some j =>
      cases j
      case jobj fields => rw [hv] at h; simp [isObjLike] at h
      case jarr xs => rw [hv] at h; simp [isObjLike] at h
      all_goals rfl
  · intro xs hv
    simp only [normalizeCls]
    rw [hv]

/-- C8 witness input: wrongly-typed `urgency_score`, `topics`, `sentiment`
and `entities` fields of typeof other than object/array. -/
def c8wrong : JVal :=
  JVal.jobj [("urgency_score", JVal.jstr "high"), ("topics", JVal.jnum 3),
             ("sentiment", JVal.jbool true), ("entities", JVal.jstr "me")]

/-- C8 witness input exercising the array-valued `entities` branch. -/
def c8arrEnt : JVal := JVal.jobj [("entities", JVal.jarr [JVal.jnum 1])]

/-- C8 witness: the amended degradation contract at concrete wrongly-typed
upstream answers — including the unset fallback for a string-valued
`entities` and the stored-as-is behaviour for an array-valued one. -/
theorem classifyStep_never_raises_defaults_witness :
    (classifyStep (ClsOutcome.parsed c8wrong)).isOk = true ∧
    (normalizeCls c8wrong).urgency_score = 0 ∧
    (normalizeCls c8wrong).topics = none ∧
    (normalizeCls c8wrong).sentiment = none ∧
    (normalizeCls c8wrong).entities = none ∧
    (normalizeCls c8arrEnt).entities = some (JVal.jarr [JVal.jnum 1]) :=
  ⟨(classifyStep_never_raises_defaults (ClsOutcome.parsed c8wrong) c8wrong "x").1,
   (classifyStep_never_raises_defaults (ClsOutcome.parsed c8wrong) c8wrong "x").2.2.2.1
     (by decide),
   (classifyStep_never_raises_defaults (ClsOutcome.parsed c8wrong) c8wrong "x").2.2.2.2.1
     (by decide),
   (classifyStep_never_raises_defaults (ClsOutcome.parsed c8wrong) c8wrong "x").2.2.2.2.2.1
     (by decide),
   (classifyStep_never_raises_defaults (ClsOutcome.parsed c8wrong) c8wrong "x").2.2.2.2.2.2.1
     (by decide),
   (classifyStep_never_raises_defaults (ClsOutcome.parsed c8arrEnt) c8arrEnt "x").2.2.2.2.2.2.2.1
     [JVal.jnum 1] rfl⟩

/-- C9 counterexample: a done follow-up with a leftover snooze deadline and
a resolution timestamp. -/
def c9done : FRow := { message_id := 1, status := "done", due_at := some 555, resolved_at := some 10 }

/-- C9 counterexample classification: enrichment flagged `followup`. -/
def c9cls : Cls := { neutralCls with followup := true }

/-- C9 counterexample: re-opening the done row only rewrites `status`; the
old `due_at` (and `resolved_at`) survive, so the result is **not** the
fresh open/no-`due_at` state the claim requires. -/
theorem followupStep_reopen_keeps_due_at :
    flookup (followupStep 1 c9cls [c9done]) 1 =
      some { message_id := 1, status := "open", due_at := some 555, resolved_at := some 10 } ∧
    (some (555 : Int) : Option Int) ≠ none :=
  ⟨rfl, by decide⟩

/-- C9 (amended): a follow-up row is upserted by enrichment iff the
message is flagged `followup` or `is_question`; when no row exists a fresh
`open` row with no `due_at` is inserted; when a row exists (done or not)
only its `status` is set back to `open` — its previous `due_at` and
`resolved_at` are retained, not cleared. -/
theorem followupStep_contract (mid : Nat) (c : Cls) (fl : List FRow) (r0 : FRow) :
    (c.followup = false → c.is_question = false → followupStep mid c fl = fl) ∧
    ((c.followup || c.is_question) = true →
      (fl.any fun r => r.message_id == mid) = false →
      followupStep mid c fl =
        fl ++ [{ message_id := mid, status := "open", due_at := none, resolved_at := none }]) ∧
    ((c.followup || c.is_question) = true → flookup fl mid = some r0 →
      flookup (followupStep mid c fl) mid = some { r0 with status := "open" }) := by
  refine ⟨?_, ?_, ?_⟩
  · intro h1 h2
    simp [followupStep, h1, h2]
  · intro hf hany
    simp [followupStep, hf, hany]
  · intro hf h
    have h2 : fl.find? (fun r2 => r2.message_id == mid) = some r0 := h
    have hany : (fl.any fun r => r.message_id == mid) = true := by
      rw [List.any_eq_true]
      exact ⟨r0, List.mem_of_find?_eq_some h2,
        List.find?_some (p := fun r2 : FRow => r2.message_id == mid) h2⟩
    unfold followupStep
    rw [if_pos hf, if_pos hany]
    rw [flookup_map_upd mid (fun r => { r with status := "open" }) (fun r => rfl), h]
    rfl

/-- C9 witness table: one done row for message 3. -/
def c9fl : List FRow := [{ message_id := 3, status := "done", due_at := some 5, resolved_at := none }]

/-- C9 witness: the amended follow-up contract at concrete inputs — no
flags means no row, flags on an empty table insert a fresh open row, and
flags on a done row re-open it in place. -/
theorem followupStep_contract_witness :
    followupStep 3 neutralCls c9fl = c9fl ∧
    followupStep 3 c9cls [] =
      [] ++ [{ message_id := 3, status := "open", due_at := none, resolved_at := none }] ∧
    flookup (followupStep 3 c9cls c9fl) 3 =
      some { message_id := 3, status := "open", due_at := some 5, resolved_at := none } :=
  ⟨(followupStep_contract 3 neutralCls c9fl c9done).1 rfl rfl,
   (followupStep_contract 3 c9cls [] c9done).2.1 (by decide) (by decide),
   (followupStep_contract 3 c9cls c9fl
      { message_id := 3, status := "done", due_at := some 5, resolved_at := none }).2.2
     (by decide) (by decide)⟩

/-- C10 counterexample message: the bare text `"/"`. -/
def c10slash : MsgRow := { external_ref := some 7, text := "/", created_at := 0 }

/-- C10 counterexample: the text `"/"` has a first token beginning with
`"/"`, yet `parseCommand` yields the empty name, which is falsy in
`if (name)`, so the handler falls through to the classifier branch and —
the insert being fresh — **does** invoke classification. -/
theorem webhook_slash_triggers_classifier :
    (firstTokL "/").head? = some '/' ∧
    webhookHandleText ⟨[], 0⟩ c10slash = Except.ok (⟨[(0, c10slash)], 1⟩, true) := by
  constructor
  · decide
  · rfl

/-- C10 (amended): the webhook always inserts the message row first; a
message is dispatched as a command exactly when its first token starts
with `"/"` followed by at least one character (the bare `"/"` has an empty
— falsy — name and is treated as a non-command); command messages never
reach the classifier, and classification is invoked exactly when the name
is not truthy and the insert returned a fresh id. -/
theorem webhook_command_gate (s : MsgStore) (r : MsgRow) (s2 : MsgStore) (iid : Option Nat)
    (h : insertMessage s r = Except.ok (s2, iid)) :
    webhookHandleText s r =
      Except.ok (s2, if jsTruthyStr (commandName r.text) then false else iid.isSome) ∧
    jsTruthyStr (commandName r.text) =
      (((firstTokL r.text).head? == some '/') && !((firstTokL r.text).drop 1).isEmpty) := by
  constructor
  · unfold webhookHandleText
    rw [h]
    cases hb : jsTruthyStr (commandName r.text) <;> simp [hb]
  · unfold commandName
    cases ht : firstTokL r.text
    case nil => rfl
    case cons c rest =>
      by_cases hc : (c == '/') = true
      · have hceq : c = '/' := by simpa using hc
        subst hceq
        simp [jsTruthyStr]
      · have hcf : (c == '/') = false := by simpa using hc
        simp [jsTruthyStr, hcf]

/-- C10 witness message: an ordinary non-command text. -/
def c10normal : MsgRow := { external_ref := some 8, text := "hello world", created_at := 0 }

/-- C10 witness: the amended command-gate contract at a concrete fresh
non-command message. -/
theorem webhook_command_gate_witness :
    webhookHandleText ⟨[], 0⟩ c10normal =
      Except.ok (⟨[(0, c10normal)], 1⟩,
        if jsTruthyStr (commandName c10normal.text) then false
        else (some 0 : Option Nat).isSome) ∧
    jsTruthyStr (commandName c10normal.text) =
      (((firstTokL c10normal.text).head? == some '/') &&
        !((firstTokL c10normal.text).drop 1).isEmpty) :=
  webhook_command_gate ⟨[], 0⟩ c10normal ⟨[(0, c10normal)], 1⟩ (some 0) rfl
